import Mathlib

/-!
Verification of the data-transformation pipeline of a COVID-19 dashboard
(`app.py`).  The script loads two wide-format tables (confirmed cases and
deaths), melts them to long form with `id_vars = ["Province/State",
"Country/Region"]`, coerces the `Date` column with
`pd.to_datetime(..., errors='coerce')`, drops rows whose date failed to
parse, filters rows to a fixed country allow-list, and computes
groupby-sums.

The embedding below models the tables as lists of rows.  The `Lat`/`Long`
columns are dropped by the script before the melt, so the wide rows here
carry only the two id columns and the date-valued columns.  Dates are
modelled abstractly: `pd.to_datetime(..., errors='coerce')` becomes a
parameter `parse : String → Option Nat` (`none` plays the role of `NaT`,
a `Nat` timestamp the role of a parsed datetime); coercion never raises,
which the embedding reflects by `parse` being a total function.
-/

/-- A row of the wide-format input table after `drop(columns=['Lat','Long'])`:
the two id columns and one integer per date column.  A well-formed table has
`values.length` equal to the number of date-column headers. -/
structure WideRow where
  provState : String
  country : String
  values : List Int
deriving DecidableEq, Repr

/-- A row of the melted (long-form) table, before date parsing: the `Date`
column still holds the raw column header string. -/
structure LongRow where
  provState : String
  country : String
  date : String
  value : Int
deriving DecidableEq, Repr

/-- A row of the long-form table after `pd.to_datetime(..., errors='coerce')`:
the `Date` column holds `some t` for a parsed date and `none` for `NaT`. -/
structure LongRowP where
  provState : String
  country : String
  date : Option Nat
  value : Int
deriving DecidableEq, Repr

/-- The long rows contributed by a single date column (header `h`, column
index `j`): one row per wide row, keeping the id columns.  `pandas.melt`
emits the value columns one after the other, each contributing every input
row, which is the column-major order used here. -/
def meltColumn (rows : List WideRow) (j : Nat) (h : String) : List LongRow :=
  rows.map (fun r => ⟨r.provState, r.country, h, r.values.getD j 0⟩)

/-- Melt the date columns starting at column index `j`. -/
def meltFrom (rows : List WideRow) (j : Nat) : List String → List LongRow
  | [] => []
  | h :: hs => meltColumn rows j h ++ meltFrom rows (j + 1) hs

/-- `df.melt(id_vars=["Province/State","Country/Region"], var_name="Date",
value_name=...)`: every date column becomes, for every wide row, one long
row `(Province/State, Country/Region, Date, value)`. -/
def melt (headers : List String) (rows : List WideRow) : List LongRow :=
  meltFrom rows 0 headers

/-- The action of `pd.to_datetime(..., errors='coerce')` on one row: the raw
date string is replaced by its parse result (`none` on failure, never an
error). -/
def mapRow (parse : String → Option Nat) (r : LongRow) : LongRowP :=
  ⟨r.provState, r.country, parse r.date, r.value⟩

/-- `df['Date'] = pd.to_datetime(df['Date'], errors='coerce')`. -/
def toDatetime (parse : String → Option Nat) (l : List LongRow) : List LongRowP :=
  l.map (mapRow parse)

/-- `df.dropna(subset=['Date'])`: keep exactly the rows whose date parsed. -/
def dropnaDate (l : List LongRowP) : List LongRowP :=
  l.filter (fun r => r.date.isSome)

/-- The per-table body of `load_data`: melt, coerce dates, drop `NaT` rows. -/
def loadTable (parse : String → Option Nat) (headers : List String)
    (rows : List WideRow) : List LongRowP :=
  dropnaDate (toDatetime parse (melt headers rows))

/-- `load_data` proper: it processes the cases table and the deaths table with
the same pipeline and returns the pair `(df_cases, df_deaths)`. -/
def load_data (parse : String → Option Nat)
    (casesHeaders : List String) (casesRows : List WideRow)
    (deathsHeaders : List String) (deathsRows : List WideRow) :
    List LongRowP × List LongRowP :=
  (loadTable parse casesHeaders casesRows, loadTable parse deathsHeaders deathsRows)

/-- `countries_to_plot = ['US', 'India', 'United Kingdom']`. -/
def countries_to_plot : List String :=
  ["US", "India", "United Kingdom"]

/-- `df[df['Country/Region'].isin(allow)]`. -/
def filterCountries (allow : List String) (t : List LongRowP) : List LongRowP :=
  t.filter (fun r => allow.contains r.country)

/-- The grouped sum at one `(Date, Country/Region)` key: the sum of the metric
over all rows carrying that key. -/
def sumAt (t : List LongRowP) (d : Nat) (c : String) : Int :=
  ((t.filter (fun r => r.date == some d && r.country == c)).map (·.value)).sum

/-- The `(Date, Country/Region)` keys of `groupby(['Date','Country/Region'])`:
one key per distinct pair occurring in the table.  As in pandas, rows whose
grouping key is null (`NaT` date) are dropped from the grouping. -/
def groupKeys (t : List LongRowP) : List (Nat × String) :=
  (t.filterMap (fun r => r.date.map (fun d => (d, r.country)))).dedup

/-- `df.groupby(['Date','Country/Region'])[metric].sum().reset_index()`:
one output row per key, holding the grouped sum. -/
def groupByDateCountry (t : List LongRowP) : List ((Nat × String) × Int) :=
  (groupKeys t).map (fun k => (k, sumAt t k.1 k.2))

/-- The grouped sum for one country: the metric summed over every row of that
country, across all sub-regions and all dates. -/
def sumByCountry (t : List LongRowP) (c : String) : Int :=
  ((t.filter (fun r => r.country == c)).map (·.value)).sum

/-- The `Country/Region` keys of `groupby('Country/Region')`. -/
def countryKeys (t : List LongRowP) : List String :=
  (t.map (·.country)).dedup

/-- `df.groupby('Country/Region')[metric].sum().reset_index()` (the table fed
to the "Total Deaths (Latest Data)" bar chart). -/
def groupByCountry (t : List LongRowP) : List (String × Int) :=
  (countryKeys t).map (fun c => (c, sumByCountry t c))

/-- A rectangular long-form table: one row per (region key, date) pair, with
value `v k d`, dates in column-major order as produced by the melt.  This is
the shape every table produced by `load_data` has (dropping an unparseable
date column drops it uniformly for every region). -/
def mkRect (ks : List (String × String)) (dates : List Nat)
    (v : String × String → Nat → Int) : List LongRowP :=
  (dates.map (fun d => ks.map (fun k => LongRowP.mk k.1 k.2 (some d) (v k d)))).flatten

/-! ### Helper lemmas -/

theorem length_meltFrom (rows : List WideRow) (j : Nat) (hs : List String) :
    (meltFrom rows j hs).length = hs.length * rows.length := by
  induction hs generalizing j with
  | nil => simp [meltFrom]
  | cons h hs ih =>
      simp [meltFrom, meltColumn, ih, Nat.succ_mul, Nat.add_comm]

theorem length_melt (headers : List String) (rows : List WideRow) :
    (melt headers rows).length = headers.length * rows.length :=
  length_meltFrom rows 0 headers

theorem countP_add_countP_not (p : α → Bool) (l : List α) :
    l.countP p + l.countP (fun a => !(p a)) = l.length := by
  induction l with
  | nil => rfl
  | cons a l ih =>
      by_cases h : p a = true
      · simp [List.countP_cons, h]
        omega
      · simp [List.countP_cons, h, Bool.not_eq_true] at *
        omega

theorem length_dropna_toDatetime (parse : String → Option Nat) (l : List LongRow) :
    (dropnaDate (toDatetime parse l)).length =
      l.countP (fun r => (parse r.date).isSome) := by
  induction l with
  | nil => rfl
  | cons r l ih =>
      simp only [toDatetime, List.map_cons, dropnaDate, List.filter_cons,
        List.countP_cons] at *
      by_cases h : (parse r.date).isSome = true
      · simp [mapRow, h, ih]
      · simp [mapRow, h, ih]

/-! ### C1: long-form row count after melt and dropna -/

/-- C1: for a well-formed wide table with `R` rows and `D` date columns, the
long table produced by the melt/coerce/dropna pipeline has exactly
`R * D - u` rows, where `u` is the number of melted rows whose date column
header fails to parse. -/
theorem loadTable_row_count (parse : String → Option Nat)
    (headers : List String) (rows : List WideRow)
    (_hwf : ∀ r ∈ rows, r.values.length = headers.length) :
    (loadTable parse headers rows).length =
      rows.length * headers.length -
        (melt headers rows).countP (fun r => (parse r.date).isNone) := by
  have hsplit := countP_add_countP_not
    (fun r : LongRow => (parse r.date).isSome) (melt headers rows)
  have hfun : (fun r : LongRow => !(parse r.date).isSome) =
      (fun r : LongRow => (parse r.date).isNone) :=
    funext (fun r => by cases parse r.date <;> rfl)
  rw [loadTable, length_dropna_toDatetime]
  rw [hfun] at hsplit
  rw [length_melt, Nat.mul_comm] at hsplit
  omega

/-- Witness for C1 on a concrete table: one wide row, one parseable and one
unparseable date column. -/
theorem loadTable_row_count_witness :
    (loadTable (fun s => if s == "Jan-1" then some 1 else none)
        ["Jan-1", "bad"] [⟨"", "US", [10, 15]⟩]).length =
      1 * 2 -
        (melt ["Jan-1", "bad"] [⟨"", "US", [10, 15]⟩]).countP
          (fun r => ((fun s : String => if s == "Jan-1" then some 1 else none)
            r.date).isNone) :=
  loadTable_row_count (fun s => if s == "Jan-1" then some 1 else none)
    ["Jan-1", "bad"] [⟨"", "US", [10, 15]⟩] (by decide)

/-! ### C4: date coercion never fails, unparseable rows are dropped -/

/-- C4: `to_datetime` with coercion is total (it keeps every row, replacing an
unparseable date by null), and the subsequent `dropna` output contains exactly
the images of the input rows whose date parsed: every row with a parseable
date is kept and every row with an unparseable date is dropped. -/
theorem toDatetime_coerce_dropna (parse : String → Option Nat) (l : List LongRow) :
    (toDatetime parse l).length = l.length ∧
      (∀ r' : LongRowP, r' ∈ dropnaDate (toDatetime parse l) ↔
        ∃ r ∈ l, (parse r.date).isSome ∧ r' = mapRow parse r) := by
  constructor
  · simp [toDatetime]
  · intro r'
    simp only [dropnaDate, toDatetime, List.mem_filter, List.mem_map]
    constructor
    · rintro ⟨⟨r, hr, rfl⟩, hsome⟩
      exact ⟨r, hr, hsome, rfl⟩
    · rintro ⟨r, hr, hsome, rfl⟩
      exact ⟨⟨r, hr, rfl⟩, hsome⟩

theorem sum_map_split {α : Type} (p : α → Bool) (f : α → Int) (l : List α) :
    ((l.filter p).map f).sum + ((l.filter (fun a => !(p a))).map f).sum =
      (l.map f).sum := by
  induction l with
  | nil => simp
  | cons a l ih =>
      cases h : p a with
      | true => simp [List.filter_cons, h]; omega
      | false => simp [List.filter_cons, h]; omega

theorem sum_map_nonneg {α : Type} (f : α → Int) (l : List α)
    (h : ∀ x ∈ l, 0 ≤ f x) : 0 ≤ (l.map f).sum := by
  induction l with
  | nil => simp
  | cons a l ih =>
      have ha := h a (List.mem_cons_self a l)
      have hl := ih (fun x hx => h x (List.mem_cons_of_mem a hx))
      simp only [List.map_cons, List.sum_cons]
      omega

theorem single_le_sum_map {α : Type} (f : α → Int) (l : List α)
    (h : ∀ y ∈ l, 0 ≤ f y) (x : α) (hx : x ∈ l) : f x ≤ (l.map f).sum := by
  induction l with
  | nil => cases hx
  | cons a l ih =>
      rcases List.mem_cons.mp hx with hxa | hx'
      · have hl := sum_map_nonneg f l (fun y hy => h y (List.mem_cons_of_mem a hy))
        have hfx : f x = f a := by rw [hxa]
        simp only [List.map_cons, List.sum_cons]
        omega
      · have ha := h a (List.mem_cons_self a l)
        have := ih (fun y hy => h y (List.mem_cons_of_mem a hy)) hx'
        simp only [List.map_cons, List.sum_cons]
        omega

theorem sum_map_le_sum_map {α : Type} (f g : α → Int) (l : List α)
    (h : ∀ x ∈ l, f x ≤ g x) : (l.map f).sum ≤ (l.map g).sum := by
  induction l with
  | nil => simp
  | cons a l ih =>
      have ha := h a (List.mem_cons_self a l)
      have hl := ih (fun x hx => h x (List.mem_cons_of_mem a hx))
      simp only [List.map_cons, List.sum_cons]
      omega

theorem filter_and_eq {α : Type} (p q : α → Bool) (l : List α) :
    l.filter (fun a => p a && q a) = (l.filter q).filter p := by
  induction l with
  | nil => rfl
  | cons a l ih =>
      cases hp : p a <;> cases hq : q a <;>
        simp only [List.filter_cons, hp, hq, Bool.and_true, Bool.and_false,
          Bool.true_and, Bool.false_and, ite_true, ite_false, Bool.false_eq_true,
          if_false, if_true, ih]

theorem filter_map_comm {α β : Type} (g : β → α) (p : α → Bool) (q : β → Bool)
    (hpq : ∀ b, p (g b) = q b) (l : List β) :
    (l.map g).filter p = (l.filter q).map g := by
  induction l with
  | nil => rfl
  | cons b l ih =>
      simp only [List.map_cons, List.filter_cons, hpq b, ih]
      cases hb : q b <;> simp

theorem mkRect_cons (ks : List (String × String)) (d0 : Nat) (ds : List Nat)
    (v : String × String → Nat → Int) :
    mkRect ks (d0 :: ds) v =
      ks.map (fun k => LongRowP.mk k.1 k.2 (some d0) (v k d0)) ++ mkRect ks ds v := by
  simp [mkRect]

theorem sumAt_append (l1 l2 : List LongRowP) (d : Nat) (c : String) :
    sumAt (l1 ++ l2) d c = sumAt l1 d c + sumAt l2 d c := by
  simp [sumAt, List.filter_append]

theorem sumAt_block_ne (ks : List (String × String)) (v : String × String → Nat → Int)
    (d0 d : Nat) (c : String) (hne : d0 ≠ d) :
    sumAt (ks.map (fun k => LongRowP.mk k.1 k.2 (some d0) (v k d0))) d c = 0 := by
  rw [sumAt]
  have hnil : (ks.map (fun k => LongRowP.mk k.1 k.2 (some d0) (v k d0))).filter
      (fun r => r.date == some d && r.country == c) = [] := by
    rw [List.filter_eq_nil_iff]
    intro r hrm
    rcases List.mem_map.mp hrm with ⟨k, _, rfl⟩
    simp [hne]
  rw [hnil]
  rfl

theorem sumAt_block_eq (ks : List (String × String)) (v : String × String → Nat → Int)
    (d : Nat) (c : String) :
    sumAt (ks.map (fun k => LongRowP.mk k.1 k.2 (some d) (v k d))) d c =
      ((ks.filter (fun k => k.2 == c)).map (fun k => v k d)).sum := by
  rw [sumAt, filter_map_comm _ _ (fun k => k.2 == c) (fun k => by simp)]
  rw [List.map_map]
  rfl

theorem sumAt_mkRect_not_mem (ks : List (String × String)) (ds : List Nat)
    (v : String × String → Nat → Int) (d : Nat) (c : String) (hd : d ∉ ds) :
    sumAt (mkRect ks ds v) d c = 0 := by
  induction ds with
  | nil => rfl
  | cons d0 ds ih =>
      rw [mkRect_cons, sumAt_append,
        sumAt_block_ne ks v d0 d c
          (fun h => hd (h ▸ List.mem_cons_self d0 ds)),
        ih (fun h => hd (List.mem_cons_of_mem d0 h))]
      rfl

theorem sumAt_mkRect (ks : List (String × String)) (ds : List Nat)
    (v : String × String → Nat → Int) (d : Nat) (c : String)
    (hnd : ds.Nodup) (hd : d ∈ ds) :
    sumAt (mkRect ks ds v) d c =
      ((ks.filter (fun k => k.2 == c)).map (fun k => v k d)).sum := by
  induction ds with
  | nil => cases hd
  | cons d0 ds ih =>
      rw [List.nodup_cons] at hnd
      rcases List.mem_cons.mp hd with hdd | hmem
      · subst hdd
        rw [mkRect_cons, sumAt_append, sumAt_block_eq,
          sumAt_mkRect_not_mem ks ds v d c hnd.1, add_zero]
      · have hne : d0 ≠ d := fun h => hnd.1 (h ▸ hmem)
        rw [mkRect_cons, sumAt_append, sumAt_block_ne ks v d0 d c hne,
          ih hnd.2 hmem, zero_add]

/-! ### C2: grouped sums are non-negative and monotone for cumulative input -/

/-- C2: for a long-form table with one row per (region key, date) pair whose
per-key series are non-negative and non-decreasing in the date, the
`groupby(['Date','Country/Region']).sum` values (namely `sumAt` at each key,
which is exactly the value `groupByDateCountry` stores) are non-negative, and
non-decreasing in the date for each country. -/
theorem grouped_sums_monotone (ks : List (String × String)) (dates : List Nat)
    (v : String × String → Nat → Int) (c : String) (d1 d2 : Nat)
    (hnd : dates.Nodup) (h1 : d1 ∈ dates) (h2 : d2 ∈ dates) (hle : d1 ≤ d2)
    (hnn : ∀ k ∈ ks, ∀ d ∈ dates, 0 ≤ v k d)
    (hmono : ∀ k ∈ ks, ∀ da ∈ dates, ∀ db ∈ dates, da ≤ db → v k da ≤ v k db) :
    0 ≤ sumAt (mkRect ks dates v) d1 c ∧
      sumAt (mkRect ks dates v) d1 c ≤ sumAt (mkRect ks dates v) d2 c := by
  rw [sumAt_mkRect ks dates v d1 c hnd h1, sumAt_mkRect ks dates v d2 c hnd h2]
  constructor
  · exact sum_map_nonneg _ _ (fun k hk => hnn k (List.mem_of_mem_filter hk) d1 h1)
  · exact sum_map_le_sum_map _ _ _
      (fun k hk => hmono k (List.mem_of_mem_filter hk) d1 h1 d2 h2 hle)

/-- Witness for C2: one region key, dates 1 and 2, series value equal to the
date (non-negative and increasing). -/
theorem grouped_sums_monotone_witness :
    0 ≤ sumAt (mkRect [("", "US")] [1, 2] (fun _ d => (d : Int))) 1 "US" ∧
      sumAt (mkRect [("", "US")] [1, 2] (fun _ d => (d : Int))) 1 "US" ≤
        sumAt (mkRect [("", "US")] [1, 2] (fun _ d => (d : Int))) 2 "US" :=
  grouped_sums_monotone [("", "US")] [1, 2] (fun _ d => (d : Int)) "US" 1 2
    (by decide) (by decide) (by decide) (by decide) (by decide) (by decide)

/-! ### C5: no allow-list match yields empty results, not an error -/

/-- C5: if no row's country is in the allow-list, the filter stage returns an
empty table and the groupby-sum of that table is itself empty; nothing
fails. -/
theorem filter_no_match_empty (t : List LongRowP)
    (h : ∀ r ∈ t, r.country ∉ countries_to_plot) :
    filterCountries countries_to_plot t = [] ∧
      groupByDateCountry (filterCountries countries_to_plot t) = [] := by
  have hnil : filterCountries countries_to_plot t = [] := by
    rw [filterCountries, List.filter_eq_nil_iff]
    intro r hr
    simpa using h r hr
  refine ⟨hnil, ?_⟩
  rw [hnil]
  rfl

/-- Witness for C5: a one-row table whose country is not on the allow-list. -/
theorem filter_no_match_empty_witness :
    filterCountries countries_to_plot [⟨"", "France", some 1, 3⟩] = [] ∧
      groupByDateCountry
        (filterCountries countries_to_plot [⟨"", "France", some 1, 3⟩]) = [] :=
  filter_no_match_empty [⟨"", "France", some 1, 3⟩] (by decide)

/-! ### C7: the allow-list filter keeps exactly the allowed rows -/

/-- A concrete long-form table with rows for both `US` and `France`. -/
def mixedRows : List LongRowP :=
  [⟨"", "US", some 1, 10⟩, ⟨"", "France", some 1, 20⟩, ⟨"NY", "US", some 2, 30⟩]

/-- C7: a row survives the allow-list filter iff its country is on the
allow-list; in particular the allow-list `{US}` applied to a table with `US`
and `France` rows keeps exactly the `US` rows. -/
theorem filterCountries_membership :
    (∀ (allow : List String) (t : List LongRowP) (r : LongRowP),
        r ∈ filterCountries allow t ↔ r ∈ t ∧ r.country ∈ allow) ∧
      filterCountries ["US"] mixedRows =
        [⟨"", "US", some 1, 10⟩, ⟨"NY", "US", some 2, 30⟩] := by
  constructor
  · intro allow t r
    simp [filterCountries, List.mem_filter]
  · decide

/-! ### C8: grouped sum of deaths for one country -/

/-- The deaths of the two `US` sub-region rows of the C8 example. -/
def usDeathRows : List LongRowP :=
  [⟨"Sub1", "US", some 5, 5⟩, ⟨"Sub2", "US", some 5, 7⟩]

/-- C8: `groupby('Country/Region')['Deaths'].sum()` over a table whose only
rows are two `US` sub-region rows with values 5 and 7 yields the single total
`("US", 12)`. -/
theorem groupByCountry_us_total :
    groupByCountry usDeathRows = [("US", 12)] := by
  decide

/-! ### C9: the bar-chart total sums over every date, not the latest one -/

/-- A two-date `US` deaths table: value 5 at date 1 and 7 at date 2. -/
def usDeathRowsW : List LongRowP :=
  [⟨"", "US", some 1, 5⟩, ⟨"", "US", some 2, 7⟩]

/-- C9: the per-country value fed to the "Total Deaths (Latest Data)" bar
chart is `sumByCountry`, the metric summed over every (sub-region, date) row
of the country; when some row of the country carries a positive value at a
date other than the latest one, that value strictly exceeds the sum at the
latest date alone. -/
theorem deaths_chart_sums_all_dates (t : List LongRowP) (c : String)
    (dmax : Nat) (r0 : LongRowP) (hr : r0 ∈ t) (hc : r0.country = c)
    (hd : r0.date ≠ some dmax) (hv : 0 < r0.value)
    (hnn : ∀ r ∈ t, 0 ≤ r.value) :
    (c, sumByCountry t c) ∈ groupByCountry t ∧
      sumAt t dmax c < sumByCountry t c := by
  constructor
  · have hck : c ∈ countryKeys t := by
      rw [countryKeys, List.mem_dedup]
      exact hc ▸ List.mem_map_of_mem (·.country) hr
    rw [groupByCountry]
    exact List.mem_map.mpr ⟨c, hck, rfl⟩
  · have hmerge : t.filter (fun r => r.date == some dmax && r.country == c) =
        (t.filter (fun r => r.country == c)).filter (fun r => r.date == some dmax) :=
      filter_and_eq (fun r => r.date == some dmax) (fun r => r.country == c) t
    have hsplit := sum_map_split (fun r : LongRowP => r.date == some dmax)
      (·.value) (t.filter (fun r => r.country == c))
    have hnn' : ∀ r ∈ (t.filter (fun r => r.country == c)).filter
        (fun r => !(r.date == some dmax)), 0 ≤ r.value :=
      fun r hrm => hnn r (List.mem_of_mem_filter (List.mem_of_mem_filter hrm))
    have hr0m : r0 ∈ (t.filter (fun r => r.country == c)).filter
        (fun r => !(r.date == some dmax)) := by
      rw [List.mem_filter, List.mem_filter]
      refine ⟨⟨hr, ?_⟩, ?_⟩
      · simp [hc]
      · simp [hd]
    have hpos := single_le_sum_map (·.value)
      ((t.filter (fun r => r.country == c)).filter (fun r => !(r.date == some dmax)))
      hnn' r0 hr0m
    dsimp only at hpos
    rw [sumAt, hmerge, sumByCountry]
    omega

/-- Witness for C9: two `US` rows at dates 1 and 2, values 5 and 7; the
bar-chart total is 12, strictly above the value 7 at the latest date 2. -/
theorem deaths_chart_sums_all_dates_witness :
    ((("US" : String), sumByCountry usDeathRowsW "US") ∈
        groupByCountry usDeathRowsW ∧
      sumAt usDeathRowsW 2 "US" < sumByCountry usDeathRowsW "US") :=
  deaths_chart_sums_all_dates usDeathRowsW "US" 2 ⟨"", "US", some 1, 5⟩
    (by decide) (by decide) (by decide) (by decide) (by decide)

/-! ### C3: filtering by the allow-list is idempotent -/

/-- C3: for every table `t` and allow-list, filtering an already-filtered
table yields the same table: `filter (filter t) = filter t`. -/
theorem filterCountries_idempotent (allow : List String) (t : List LongRowP) :
    filterCountries allow (filterCountries allow t) = filterCountries allow t := by
  unfold filterCountries
  induction t with
  | nil => rfl
  | cons r t ih =>
      by_cases h : allow.contains r.country
      · simp [h, ih]
      · simp [h, ih]

/-! ### C6: concrete melt example -/

/-- C6: the wide row with empty sub-region, country `US`, and date columns
`Jan-1 = 10`, `Jan-2 = 15` melts to exactly the two long rows
`(US, Jan-1, 10)` and `(US, Jan-2, 15)`. -/
theorem melt_us_example :
    melt ["Jan-1", "Jan-2"] [⟨"", "US", [10, 15]⟩] =
      [⟨"", "US", "Jan-1", 10⟩, ⟨"", "US", "Jan-2", 15⟩] := by
  rfl

/-! ### C10: every surviving row carries a parsed, non-null date -/

/-- C10: every row of both tables returned by `load_data` has a parsed
(`some`) date; the allow-list filter preserves this, and every grouping key
of the downstream `groupby(['Date','Country/Region'])` is a non-null date
taken from a surviving row. -/
theorem load_data_dates_parsed (parse : String → Option Nat)
    (ch : List String) (cr : List WideRow) (dh : List String) (dr : List WideRow)
    (allow : List String) :
    (∀ r ∈ (load_data parse ch cr dh dr).1, r.date.isSome) ∧
      (∀ r ∈ (load_data parse ch cr dh dr).2, r.date.isSome) ∧
      (∀ r ∈ filterCountries allow (load_data parse ch cr dh dr).1, r.date.isSome) ∧
      (∀ k ∈ groupKeys (filterCountries allow (load_data parse ch cr dh dr).1),
        ∃ r ∈ filterCountries allow (load_data parse ch cr dh dr).1,
          r.date = some k.1) := by
  have hload : ∀ (hs : List String) (rs : List WideRow),
      ∀ r ∈ loadTable parse hs rs, r.date.isSome := by
    intro hs rs r hrm
    exact (List.mem_filter.mp hrm).2
  refine ⟨hload ch cr, hload dh dr, ?_, ?_⟩
  · intro r hrm
    exact hload ch cr r (List.mem_of_mem_filter hrm)
  · intro k hk
    rw [groupKeys, List.mem_dedup, List.mem_filterMap] at hk
    rcases hk with ⟨r, hrm, heq⟩
    refine ⟨r, hrm, ?_⟩
    cases hdate : r.date with
    | none => rw [hdate] at heq; cases heq
    | some d =>
        rw [hdate] at heq
        have h2 : some (d, r.country) = some k := heq
        rw [(Option.some.inj h2).symm]
